import Mathlib

/-!
Shallow embedding of `tv_grab_fr_sfr.py` (SFR XMLTV grabber) and proofs about
its specification claims.

Conventions of the embedding:
* Python strings are Lean `String`; `str.strip()` is modelled by `pyStrip`
  (stripping surrounding ASCII whitespace; no claim depends on the exotic
  Unicode whitespace characters Python additionally strips).
* Datetimes are modelled in whole minutes. A timezone-aware datetime is
  represented by its naive wall-clock value (minutes since a local epoch)
  together with a timezone, itself modelled as a UTC-offset function
  `Int → Int` (minutes east of UTC, as a function of the naive value — this
  captures DST-dependent offsets as `pytz` computes them). The UTC instant of
  a naive value `n` in timezone `off` is `n - off n`; aware datetimes compare
  by instant, exactly as Python compares aware `datetime` objects.
* Program `start`/`stop` attributes are parsed by the source with
  `strptime('%Y%m%d%H%M%S %z')` into aware datetimes and only ever compared;
  we embed the parsed instants directly as `Int` minutes.
* Calendar dates are `Int` days since an epoch; one day is 1440 minutes.
* Fallible Python code (an `AttributeError` on a missing `<title>`, which
  aborts the grab) is modelled with `Option`.
-/

/-- Python (ASCII) whitespace, as stripped by `str.strip()` and matched by
the whitespace class of the configuration-line regex. -/
def isPyWs (c : Char) : Bool :=
  c = ' ' ∨ c = '\t' ∨ c = '\n' ∨ c = '\r' ∨ c = '\x0b' ∨ c = '\x0c'

/-- Python `str.strip()`: remove leading and trailing whitespace from the
string. -/
def pyStrip (s : String) : String :=
  ⟨((s.data.dropWhile fun c => isPyWs c).reverse.dropWhile fun c => isPyWs c).reverse⟩

/-- Characters of the literal replacement string "PLUS" used by
`_sfr_to_xmltv_id` for the "+" character. -/
def plusChars : List Char := ['P', 'L', 'U', 'S']

/-- Characters of the fixed domain suffix ".tv.sfr.fr" appended by
`_sfr_to_xmltv_id`. -/
def sfrSuffix : List Char := ['.', 't', 'v', '.', 's', 'f', 'r', '.', 'f', 'r']

/-- Python `str.replace(target, repl)` for a single-character target,
character-by-character over the string's characters. -/
def replaceAllChar (target : Char) (repl : List Char) : List Char → List Char
  | [] => []
  | c :: cs => (if c = target then repl else [c]) ++ replaceAllChar target repl cs

/-- `_sfr_to_xmltv_id`: replace every underscore with a hyphen, every "+"
with the literal "PLUS", then append the fixed domain suffix ".tv.sfr.fr". -/
def sfrToXmltvId (sfrId : String) : String :=
  ⟨replaceAllChar '+' plusChars (replaceAllChar '_' ['-'] sfrId.data) ++ sfrSuffix⟩

/-- `_ETSI_PROGRAM_CATEGORIES`: the fixed translation table from SFR program
categories to ETSI EN 300 468 categories (9 entries; "Autre" maps to the
empty string). -/
def ETSI_PROGRAM_CATEGORIES : List (String × String) :=
  [("Autre", ""),
   ("Cinéma", "Movie / Drama"),
   ("Documentaire", "Documentary"),
   ("Jeunesse", "Children's / Youth programmes"),
   ("Magazine", "Magazines / Reports / Documentary"),
   ("Série TV", "Movie / Drama"),
   ("Spectacle", "Performing arts"),
   ("Sport", "Sports"),
   ("Téléfilm", "Movie / Drama")]

/-- `_etsi_category`: look the category up in the fixed table
(`dict.get`, `none` when absent); the second component records whether the
"no defined ETSI equivalent" warning was logged (exactly when the lookup
misses). The looked-up value — possibly `none` — is returned either way. -/
def etsiCategory (category : String) : Option String × Bool :=
  match ETSI_PROGRAM_CATEGORIES.lookup category with
  | some v => (some v, false)
  | none => (none, true)

/-- The fixed base path `_PROGRAM_URL` for synthesized program detail URLs. -/
def PROGRAM_URL : String := "http://tv.sfr.fr/prog"

/-- A vendor (SFR) program record as read from the feed XML: the `channel`
attribute, the parsed `start`/`stop` instants, the optional child-element
texts (`findtext` returns `none` when the element is absent), the optional
`id` attribute, and the optional `star-rating` element with its optional
`value` text. -/
structure SfrProgram where
  channel : String
  start : Int
  stop : Int
  title : Option String
  subTitle : Option String
  desc : Option String
  category : Option String
  metacategory : Option String
  progId : Option String
  starRating : Option (Option String)
deriving DecidableEq, Repr

/-- One emitted `category` element: its text and its optional `lang`
attribute (`some "fr"` for French-tagged entries, `none` for the
ETSI-standard entry). -/
structure XmltvCategory where
  text : String
  lang : Option String
deriving DecidableEq, Repr

/-- The XMLTV `programme` element produced by `_parse_program_xmltv`:
channel id (translated), start/stop copied verbatim, trimmed title, optional
trimmed sub-title/desc, the list of `category` elements in emission order,
the optional `url` element text and the optional `star-rating` value. -/
structure XmltvProgram where
  channel : String
  start : Int
  stop : Int
  title : String
  subTitle : Option String
  desc : Option String
  categories : List XmltvCategory
  url : Option String
  starRating : Option String
deriving DecidableEq, Repr

/-- `_parse_program_xmltv`: convert an SFR program record to an XMLTV
programme. `findtext('title')` yields `None` for a missing title and the
unguarded `.strip()` then raises, aborting the caller: modelled by `none`.
All other fields use `findtext(..., '')` / `get(..., '')` defaults. -/
def parseProgramXmltv (p : SfrProgram) : Option XmltvProgram :=
  match p.title with
  | none => none
  | some rawTitle =>
    let title := pyStrip rawTitle
    let subTitle := pyStrip (p.subTitle.getD "")
    let desc := pyStrip (p.desc.getD "")
    let category := pyStrip (p.category.getD "")
    let categories :=
      if category ≠ "" then
        (match (etsiCategory category).1 with
         | some e => if e ≠ "" then [XmltvCategory.mk e none] else []
         | none => []) ++
        (if category ≠ "" then [XmltvCategory.mk category (some "fr")] else []) ++
        (let metaCategory := pyStrip (p.metacategory.getD "")
         if metaCategory ≠ "" ∧ metaCategory ≠ category then
           [XmltvCategory.mk metaCategory (some "fr")]
         else [])
      else []
    let progId := pyStrip (p.progId.getD "")
    let url :=
      if progId ≠ "" then
        some (PROGRAM_URL ++ "/" ++ title ++ "-" ++ progId)
      else none
    let starRating :=
      match p.starRating with
      | none => none
      | some value =>
        let v := pyStrip (value.getD "")
        if v ≠ "" then some v else none
    some ⟨sfrToXmltvId p.channel, p.start, p.stop, title,
          if subTitle ≠ "" then some subTitle else none,
          if desc ≠ "" then some desc else none,
          categories, url, starRating⟩

/-- Insertion into a Python `set`, modelled as a duplicate-free list (only
membership in the set is ever observable in the claims). -/
def insertSet (x : String) (s : List String) : List String :=
  if x ∈ s then s else x :: s

/-- The body of the fetch loop of `_get_xmltv_data`, over the concatenated
program records of all fetched feeds in feed-encounter order. For each
record: skip it when its channel's XMLTV id is not in the requested set;
otherwise transform it (a missing title aborts the whole grab — `none`);
skip it when `program_stop < start or program_start >= stop`; otherwise
retain the programme and add its channel id to the `valid_xmltv_ids` set.
Returns the retained programmes in encounter order together with the set of
channel ids that produced at least one retained programme. (The source
transforms a retained record twice; the transform is deterministic, so the
second call returns the same value and is elided.) -/
def assemblePrograms (xmltvIds : List String) (start stop : Int) :
    List SfrProgram → Option (List XmltvProgram × List String)
  | [] => some ([], [])
  | r :: rs =>
    if sfrToXmltvId r.channel ∈ xmltvIds then
      match parseProgramXmltv r with
      | none => none
      | some px =>
        if px.stop < start ∨ px.start ≥ stop then
          assemblePrograms xmltvIds start stop rs
        else
          match assemblePrograms xmltvIds start stop rs with
          | none => none
          | some (ps, valid) => some (px :: ps, insertSet px.channel valid)
    else assemblePrograms xmltvIds start stop rs

/-- The assembled XMLTV document: the `channel` elements' ids (each also
carries a display name looked up in the channel catalog, which no claim
concerns) and the `programme` elements in feed-encounter order. -/
structure XmltvDocument where
  channels : List String
  programs : List XmltvProgram
deriving DecidableEq, Repr

/-- The assembly tail of `_get_xmltv_data`: run the fetch loop over the
records, then emit one channel element per member of `valid_xmltv_ids` and
append all retained programmes. `start` and `stop` are the window-boundary
instants (aware datetimes compare by instant). -/
def getXmltvData (xmltvIds : List String) (start stop : Int)
    (records : List SfrProgram) : Option XmltvDocument :=
  match assemblePrograms xmltvIds start stop records with
  | none => none
  | some (ps, valid) => some ⟨valid, ps⟩

/-- `_MAX_DAYS`, the maximum lookahead in days. -/
def MAX_DAYS : Int := 14

/-- `_SFR_START_TIME` (05:00), in minutes after midnight. -/
def SFR_START_MINUTES : Int := 300

/-- The always-fetched dates of `_get_xmltv_data`: one SFR calendar date per
day of `[start.date(), stop.date())` (empty when `days` is not positive,
as Python `range`). -/
def fetchBase (startDate days : Int) : List Int :=
  (List.range days.toNat).map (fun d : Nat => startDate + (d : Int))

/-- The window-resolution result of `_get_xmltv_data`: the effective `days`
value after clamping, whether the lookahead warning was logged, the start
date of the window, and the list of SFR calendar dates to fetch. -/
structure ResolvedWindow where
  effectiveDays : Int
  warned : Bool
  startDate : Int
  fetchDates : List Int
deriving DecidableEq, Repr

/-- The window-resolution head of `_get_xmltv_data`. `localOff` models
`pytz.reference.LocalTimezone()` and `parisOff` models the Europe/Paris
timezone, each as a UTC-offset function of the naive local value in minutes.
Clamp `days` with a warning when `days + offset` exceeds `_MAX_DAYS`;
anchor `start` at today's local midnight plus `offset` days and `stop` at
`start` plus `days` days (`datetime` + `timedelta` is naive arithmetic, the
offset being recomputed at the new value); fetch one date per day of
`[start.date(), stop.date())`; prepend the previous date when `start` is
before 05:00 Paris time on its calendar date, else append `stop.date()`
when `stop` is after 05:00 Paris time on its calendar date
(`datetime.combine` uses the datetime's date part, and both `start` and
`stop` sit at naive midnight of their dates). -/
def resolveWindow (localOff parisOff : Int → Int) (today : Int)
    (days offset : Int) : ResolvedWindow :=
  let warned := days + offset > MAX_DAYS
  let days := if days + offset > MAX_DAYS then min (MAX_DAYS - offset) MAX_DAYS else days
  let startDate := today + offset
  let startNaive := startDate * 1440
  let start := startNaive - localOff startNaive
  let stopDate := startDate + days
  let stopNaive := stopDate * 1440
  let stop := stopNaive - localOff stopNaive
  let base := fetchBase startDate days
  let fetchDates :=
    if start < (startNaive + SFR_START_MINUTES) - parisOff (startNaive + SFR_START_MINUTES) then
      (startDate - 1) :: base
    else if stop > (stopNaive + SFR_START_MINUTES) - parisOff (stopNaive + SFR_START_MINUTES) then
      base ++ [stopDate]
    else base
  ⟨days, warned, startDate, fetchDates⟩

/-- The per-line regex of `_read_configuration`: anchored at the start,
optional whitespace, the literal "channel", optional whitespace, "=",
optional whitespace, then a non-empty greedy capture running to the end of
the line. Returns the captured channel id when the line matches. -/
def parseConfigLine (line : String) : Option String :=
  let cs := (line.data.dropWhile fun c => isPyWs c)
  if cs.take 7 = "channel".data then
    match (cs.drop 7).dropWhile (fun c => isPyWs c) with
    | [] => none
    | c :: rest =>
      if c = '=' then
        let captured := rest.dropWhile fun c => isPyWs c
        if captured = [] then none else some ⟨captured⟩
      else none
  else none

/-- `_read_configuration`: collect the channel ids of all matching
`channel=` lines of the configuration file. -/
def readConfiguration (lines : List String) : List String :=
  lines.filterMap parseConfigLine

/-- The observable outcome of the grab path of `_main` (the path taken when
no `--configure`/`--version`/`--description`/`--capabilities` flag is
given): whether the process exited non-zero before grabbing, whether an
error was logged, and the channel-id list handed to `write_xmltv` when the
grab was attempted (`none` when no output document was attempted). -/
structure GrabOutcome where
  exitedNonZero : Bool
  errorLogged : Bool
  wroteWithIds : Option (List String)
deriving DecidableEq, Repr

/-- The grab-path tail of `_main`: a missing configuration file logs an
error and exits with status 1; otherwise the configuration is read and —
after logging an error if it yielded no channel ids, without exiting — the
grab proceeds and `write_xmltv` is called with the ids that were read. -/
def mainGrabPath (configFileExists : Bool) (configLines : List String) : GrabOutcome :=
  if ¬configFileExists then
    ⟨true, true, none⟩
  else
    let xmltvIds := readConfiguration configLines
    ⟨false, xmltvIds.isEmpty, some xmltvIds⟩

/-! ## Helper lemmas -/

lemma mem_replaceAllChar {target : Char} {repl : List Char} {c : Char} {l : List Char}
    (h : c ∈ replaceAllChar target repl l) : c ∈ repl ∨ (c ∈ l ∧ c ≠ target) := by
  induction l with
  | nil => simp [replaceAllChar] at h
  | cons a cs ih =>
    simp only [replaceAllChar, List.mem_append] at h
    rcases h with h | h
    · by_cases ha : a = target
      · exact Or.inl (by rwa [if_pos ha] at h)
      · rw [if_neg ha] at h
        simp only [List.mem_singleton] at h
        subst h
        exact Or.inr ⟨List.mem_cons_self _ _, ha⟩
    · rcases ih h with h' | ⟨h1, h2⟩
      · exact Or.inl h'
      · exact Or.inr ⟨List.mem_cons_of_mem _ h1, h2⟩

lemma sfrToXmltvId_data (s : String) :
    (sfrToXmltvId s).data =
      replaceAllChar '+' plusChars (replaceAllChar '_' ['-'] s.data) ++ sfrSuffix := rfl

lemma fetchBase_length (sd n : Int) : (fetchBase sd n).length = n.toNat := by
  unfold fetchBase
  rw [List.length_map, List.length_range]

lemma mem_fetchBase {sd n x : Int} (h : x ∈ fetchBase sd n) :
    sd ≤ x ∧ x < sd + n.toNat := by
  simp only [fetchBase, List.mem_map, List.mem_range] at h
  obtain ⟨k, hk, rfl⟩ := h
  constructor
  · omega
  · omega

lemma resolveWindow_effectiveDays (localOff parisOff : Int → Int) (today days offset : Int) :
    (resolveWindow localOff parisOff today days offset).effectiveDays =
      if days + offset > MAX_DAYS then min (MAX_DAYS - offset) MAX_DAYS else days := rfl

lemma resolveWindow_warned (localOff parisOff : Int → Int) (today days offset : Int) :
    (resolveWindow localOff parisOff today days offset).warned =
      decide (days + offset > MAX_DAYS) := rfl

lemma resolveWindow_startDate (localOff parisOff : Int → Int) (today days offset : Int) :
    (resolveWindow localOff parisOff today days offset).startDate = today + offset := rfl

lemma resolveWindow_fetchDates_cases (localOff parisOff : Int → Int)
    (today days offset : Int) :
    (resolveWindow localOff parisOff today days offset).fetchDates =
        (today + offset - 1) ::
          fetchBase (today + offset)
            (resolveWindow localOff parisOff today days offset).effectiveDays ∨
    (resolveWindow localOff parisOff today days offset).fetchDates =
        fetchBase (today + offset)
            (resolveWindow localOff parisOff today days offset).effectiveDays ++
          [today + offset +
            (resolveWindow localOff parisOff today days offset).effectiveDays] ∨
    (resolveWindow localOff parisOff today days offset).fetchDates =
        fetchBase (today + offset)
          (resolveWindow localOff parisOff today days offset).effectiveDays := by
  unfold resolveWindow
  dsimp only
  split_ifs <;> simp

/-! ## Claim theorems -/

/-- C8: the identifier mapping `_sfr_to_xmltv_id` is a pure deterministic
function of the vendor id — equal inputs always yield equal outputs — it
replaces every underscore with a hyphen and every "+" with "PLUS" and
appends the fixed domain suffix (its definition), and its output contains
no underscore and no "+" character. -/
theorem sfrToXmltvId_pure_no_underscore_no_plus (s t : String) (h : s.data = t.data) :
    sfrToXmltvId s = sfrToXmltvId t ∧
    '_' ∉ (sfrToXmltvId s).data ∧ '+' ∉ (sfrToXmltvId s).data := by
  refine ⟨by simp only [sfrToXmltvId, h], ?_, ?_⟩
  · rw [sfrToXmltvId_data]
    intro hmem
    rcases List.mem_append.mp hmem with hm | hm
    · rcases mem_replaceAllChar hm with hr | ⟨hm2, _⟩
      · simp [plusChars] at hr
      · rcases mem_replaceAllChar hm2 with hr | ⟨_, hne⟩
        · simp at hr
        · exact hne rfl
    · simp [sfrSuffix] at hm
  · rw [sfrToXmltvId_data]
    intro hmem
    rcases List.mem_append.mp hmem with hm | hm
    · rcases mem_replaceAllChar hm with hr | ⟨_, hne⟩
      · simp [plusChars] at hr
      · exact hne rfl
    · simp [sfrSuffix] at hm

/-- Witness for C8 at the concrete vendor id "a_b+c". -/
theorem sfrToXmltvId_pure_no_underscore_no_plus_witness :
    ("a_b+c" : String).data = ("a_b+c" : String).data ∧
    (sfrToXmltvId "a_b+c" = sfrToXmltvId "a_b+c" ∧
     '_' ∉ (sfrToXmltvId "a_b+c").data ∧ '+' ∉ (sfrToXmltvId "a_b+c").data) :=
  ⟨rfl, sfrToXmltvId_pure_no_underscore_no_plus "a_b+c" "a_b+c" rfl⟩

/-- C4: when `days + offset` exceeds the 14-day maximum lookahead (with
0 ≤ offset ≤ 14), the Window Resolver clamps the effective days value to
exactly 14 - offset (never negative), logs the non-fatal warning, and the
fetch-date list built from the clamped value has between 14 - offset and
14 - offset + 1 entries. -/
theorem resolveWindow_clamps (localOff parisOff : Int → Int) (today days offset : Int)
    (hgt : days + offset > 14) (h0 : 0 ≤ offset) (h14 : offset ≤ 14) :
    (resolveWindow localOff parisOff today days offset).effectiveDays = 14 - offset ∧
    0 ≤ (resolveWindow localOff parisOff today days offset).effectiveDays ∧
    (resolveWindow localOff parisOff today days offset).warned = true ∧
    (14 - offset) ≤
      ((resolveWindow localOff parisOff today days offset).fetchDates.length : Int) ∧
    ((resolveWindow localOff parisOff today days offset).fetchDates.length : Int) ≤
      (14 - offset) + 1 := by
  have he : (resolveWindow localOff parisOff today days offset).effectiveDays
      = 14 - offset := by
    rw [resolveWindow_effectiveDays]
    simp only [MAX_DAYS]
    rw [if_pos hgt]
    omega
  refine ⟨he, by omega, ?_, ?_, ?_⟩
  · rw [resolveWindow_warned]
    simp only [MAX_DAYS]
    exact decide_eq_true hgt
  · rcases resolveWindow_fetchDates_cases localOff parisOff today days offset with
      hc | hc | hc <;>
      simp [hc, fetchBase_length, he] <;> omega
  · rcases resolveWindow_fetchDates_cases localOff parisOff today days offset with
      hc | hc | hc <;>
      simp [hc, fetchBase_length, he] <;> omega

/-- Witness for C4 at days = 10, offset = 10 (fixed UTC offsets 0 and 60). -/
theorem resolveWindow_clamps_witness :
    ((10:Int) + 10 > 14 ∧ (0:Int) ≤ 10 ∧ (10:Int) ≤ 14) ∧
    ((resolveWindow (fun _ => 0) (fun _ => 60) 19000 10 10).effectiveDays = 14 - 10 ∧
     0 ≤ (resolveWindow (fun _ => 0) (fun _ => 60) 19000 10 10).effectiveDays ∧
     (resolveWindow (fun _ => 0) (fun _ => 60) 19000 10 10).warned = true ∧
     (14 - 10) ≤
       ((resolveWindow (fun _ => 0) (fun _ => 60) 19000 10 10).fetchDates.length : Int) ∧
     ((resolveWindow (fun _ => 0) (fun _ => 60) 19000 10 10).fetchDates.length : Int) ≤
       (14 - 10) + 1) :=
  ⟨⟨by decide, by decide, by decide⟩,
   resolveWindow_clamps (fun _ => 0) (fun _ => 60) 19000 10 10
     (by decide) (by decide) (by decide)⟩

lemma resolveWindow_fetchDates_of_leading (localOff parisOff : Int → Int)
    (today days offset : Int)
    (hlt : (today + offset) * 1440 - localOff ((today + offset) * 1440) <
      (today + offset) * 1440 + SFR_START_MINUTES -
        parisOff ((today + offset) * 1440 + SFR_START_MINUTES)) :
    (resolveWindow localOff parisOff today days offset).fetchDates =
      (today + offset - 1) ::
        fetchBase (today + offset)
          (resolveWindow localOff parisOff today days offset).effectiveDays := by
  unfold resolveWindow
  dsimp only
  rw [if_pos hlt]

/-- C2: for any requested window with 1 ≤ days, 0 ≤ offset and
days + offset ≤ 14 (so no clamping), the fetch-date list has at least `days`
and at most `days + 1` entries, and the leading-spillover date (the day
before the window start) and the trailing-spillover date (the stop date)
are never both present: at most one extra date is added. -/
theorem resolveWindow_fetchDates_bounds (localOff parisOff : Int → Int)
    (today days offset : Int)
    (h1 : 1 ≤ days) (h2 : 0 ≤ offset) (h3 : days + offset ≤ 14) :
    days ≤ ((resolveWindow localOff parisOff today days offset).fetchDates.length : Int) ∧
    ((resolveWindow localOff parisOff today days offset).fetchDates.length : Int) ≤
      days + 1 ∧
    ¬(((resolveWindow localOff parisOff today days offset).startDate - 1) ∈
        (resolveWindow localOff parisOff today days offset).fetchDates ∧
      ((resolveWindow localOff parisOff today days offset).startDate + days) ∈
        (resolveWindow localOff parisOff today days offset).fetchDates) := by
  have he : (resolveWindow localOff parisOff today days offset).effectiveDays = days := by
    rw [resolveWindow_effectiveDays, if_neg (by simp only [MAX_DAYS]; omega)]
  have hsd := resolveWindow_startDate localOff parisOff today days offset
  rcases resolveWindow_fetchDates_cases localOff parisOff today days offset with
      hc | hc | hc <;>
    rw [he] at hc
  · rw [hc, hsd]
    refine ⟨?_, ?_, ?_⟩
    · simp only [List.length_cons, fetchBase_length]
      omega
    · simp only [List.length_cons, fetchBase_length]
      omega
    · rintro ⟨-, hb⟩
      rcases List.mem_cons.mp hb with hb | hb
      · omega
      · have := mem_fetchBase hb
        omega
  · rw [hc, hsd]
    refine ⟨?_, ?_, ?_⟩
    · simp only [List.length_append, List.length_cons, List.length_nil, fetchBase_length]
      omega
    · simp only [List.length_append, List.length_cons, List.length_nil, fetchBase_length]
      omega
    · rintro ⟨ha, -⟩
      rcases List.mem_append.mp ha with ha | ha
      · have := mem_fetchBase ha
        omega
      · simp only [List.mem_singleton] at ha
        omega
  · rw [hc, hsd]
    refine ⟨?_, ?_, ?_⟩
    · simp only [fetchBase_length]
      omega
    · simp only [fetchBase_length]
      omega
    · rintro ⟨ha, -⟩
      have := mem_fetchBase ha
      omega

/-- Witness for C2 at days = 2, offset = 1, with a UTC local timezone and a
fixed +60 Paris offset. -/
theorem resolveWindow_fetchDates_bounds_witness :
    ((1:Int) ≤ 2 ∧ (0:Int) ≤ 1 ∧ (2:Int) + 1 ≤ 14) ∧
    ((2:Int) ≤ ((resolveWindow (fun _ => 0) (fun _ => 60) 19000 2 1).fetchDates.length : Int) ∧
     ((resolveWindow (fun _ => 0) (fun _ => 60) 19000 2 1).fetchDates.length : Int) ≤ 2 + 1 ∧
     ¬(((resolveWindow (fun _ => 0) (fun _ => 60) 19000 2 1).startDate - 1) ∈
         (resolveWindow (fun _ => 0) (fun _ => 60) 19000 2 1).fetchDates ∧
       ((resolveWindow (fun _ => 0) (fun _ => 60) 19000 2 1).startDate + 2) ∈
         (resolveWindow (fun _ => 0) (fun _ => 60) 19000 2 1).fetchDates)) :=
  ⟨⟨by decide, by decide, by decide⟩,
   resolveWindow_fetchDates_bounds (fun _ => 0) (fun _ => 60) 19000 2 1
     (by decide) (by decide) (by decide)⟩

/-- C3: when the local timezone is the vendor's Paris timezone (modelled as
the same UTC-offset function for both, valued in 60 or 120 minutes —
CET/CEST), the window start sits at local midnight and is therefore always
before 05:00 Paris time on its own calendar date: the leading-spillover
branch always fires, the previous calendar date is prepended, the
fetch-date list has exactly days + 1 entries, and the trailing-spillover
date (the stop date) never enters the list. Stated on the unclamped domain
1 ≤ days, 0 ≤ offset, days + offset ≤ 14. -/
theorem resolveWindow_paris_always_leading (off : Int → Int) (today days offset : Int)
    (hoff : ∀ t, off t = 60 ∨ off t = 120)
    (h1 : 1 ≤ days) (h2 : 0 ≤ offset) (h3 : days + offset ≤ 14) :
    (resolveWindow off off today days offset).fetchDates =
      ((resolveWindow off off today days offset).startDate - 1) ::
        fetchBase (resolveWindow off off today days offset).startDate days ∧
    ((resolveWindow off off today days offset).fetchDates.length : Int) = days + 1 ∧
    ((resolveWindow off off today days offset).startDate + days) ∉
      (resolveWindow off off today days offset).fetchDates := by
  have hlt : (today + offset) * 1440 - off ((today + offset) * 1440) <
      (today + offset) * 1440 + SFR_START_MINUTES -
        off ((today + offset) * 1440 + SFR_START_MINUTES) := by
    rcases hoff ((today + offset) * 1440) with h | h <;>
      rcases hoff ((today + offset) * 1440 + SFR_START_MINUTES) with h' | h' <;>
      simp only [SFR_START_MINUTES] at * <;> omega
  have he : (resolveWindow off off today days offset).effectiveDays = days := by
    rw [resolveWindow_effectiveDays, if_neg (by simp only [MAX_DAYS]; omega)]
  have hc := resolveWindow_fetchDates_of_leading off off today days offset hlt
  rw [he] at hc
  rw [resolveWindow_startDate, hc]
  refine ⟨rfl, ?_, ?_⟩
  · simp only [List.length_cons, fetchBase_length]
    omega
  · intro hmem
    rcases List.mem_cons.mp hmem with hm | hm
    · omega
    · have := mem_fetchBase hm
      omega

/-- Witness for C3 at days = 3, offset = 2, with a constant +60 offset
(CET). -/
theorem resolveWindow_paris_always_leading_witness :
    ((∀ t : Int, (fun _ : Int => (60:Int)) t = 60 ∨ (fun _ : Int => (60:Int)) t = 120) ∧
     (1:Int) ≤ 3 ∧ (0:Int) ≤ 2 ∧ (3:Int) + 2 ≤ 14) ∧
    ((resolveWindow (fun _ => 60) (fun _ => 60) 19000 3 2).fetchDates =
       ((resolveWindow (fun _ => 60) (fun _ => 60) 19000 3 2).startDate - 1) ::
         fetchBase (resolveWindow (fun _ => 60) (fun _ => 60) 19000 3 2).startDate 3 ∧
     ((resolveWindow (fun _ => 60) (fun _ => 60) 19000 3 2).fetchDates.length : Int) =
       3 + 1 ∧
     ((resolveWindow (fun _ => 60) (fun _ => 60) 19000 3 2).startDate + 3) ∉
       (resolveWindow (fun _ => 60) (fun _ => 60) 19000 3 2).fetchDates) :=
  ⟨⟨fun _ => Or.inl rfl, by decide, by decide, by decide⟩,
   resolveWindow_paris_always_leading (fun _ => 60) 19000 3 2
     (fun _ => Or.inl rfl) (by decide) (by decide) (by decide)⟩

lemma mem_insertSet {x c : String} {s : List String} :
    c ∈ insertSet x s ↔ c = x ∨ c ∈ s := by
  by_cases hx : x ∈ s
  · rw [insertSet, if_pos hx]
    constructor
    · exact Or.inr
    · rintro (rfl | h)
      · exact hx
      · exact h
  · rw [insertSet, if_neg hx]
    exact List.mem_cons

lemma assemblePrograms_mem (xmltvIds : List String) (start stop : Int)
    (rs : List SfrProgram) :
    ∀ (ps : List XmltvProgram) (valid : List String),
      assemblePrograms xmltvIds start stop rs = some (ps, valid) →
      (∀ px : XmltvProgram,
        px ∈ ps ↔ ∃ r ∈ rs, sfrToXmltvId r.channel ∈ xmltvIds ∧
          parseProgramXmltv r = some px ∧ ¬(px.stop < start ∨ px.start ≥ stop)) ∧
      (∀ c : String, c ∈ valid ↔ ∃ px ∈ ps, px.channel = c) := by
  induction rs with
  | nil =>
    intro ps valid h
    simp only [assemblePrograms, Option.some.injEq, Prod.mk.injEq] at h
    obtain ⟨hps, hvalid⟩ := h
    subst hps
    subst hvalid
    constructor
    · intro px
      simp
    · intro c
      simp
  | cons r rs ih =>
    intro ps valid h
    by_cases hsel : sfrToXmltvId r.channel ∈ xmltvIds
    · rw [assemblePrograms, if_pos hsel] at h
      rcases hp : parseProgramXmltv r with - | px0 <;> rw [hp] at h
      · exact absurd h (by simp)
      · dsimp only at h
        by_cases hskip : px0.stop < start ∨ px0.start ≥ stop
        · rw [if_pos hskip] at h
          obtain ⟨ihp, ihv⟩ := ih ps valid h
          refine ⟨fun px => ?_, ihv⟩
          rw [ihp px]
          constructor
          · rintro ⟨r', hr', hsel', hp', hin'⟩
            exact ⟨r', List.mem_cons_of_mem _ hr', hsel', hp', hin'⟩
          · rintro ⟨r', hr', hsel', hp', hin'⟩
            rcases List.mem_cons.mp hr' with rfl | hr'
            · rw [hp] at hp'
              obtain rfl : px0 = px := by injection hp'
              exact absurd hskip hin'
            · exact ⟨r', hr', hsel', hp', hin'⟩
        · rw [if_neg hskip] at h
          rcases hrec : assemblePrograms xmltvIds start stop rs with - | pv <;>
            rw [hrec] at h
          · exact absurd h (by simp)
          · obtain ⟨ps', valid'⟩ := pv
            dsimp only at h
            rw [Option.some.injEq, Prod.mk.injEq] at h
            obtain ⟨hps, hvalid⟩ := h
            subst hps
            subst hvalid
            obtain ⟨ihp, ihv⟩ := ih ps' valid' hrec
            constructor
            · intro px
              rw [List.mem_cons, ihp px]
              constructor
              · rintro (rfl | ⟨r', hr', hsel', hp', hin'⟩)
                · exact ⟨r, List.mem_cons_self _ _, hsel, hp, hskip⟩
                · exact ⟨r', List.mem_cons_of_mem _ hr', hsel', hp', hin'⟩
              · rintro ⟨r', hr', hsel', hp', hin'⟩
                rcases List.mem_cons.mp hr' with rfl | hr'
                · rw [hp] at hp'
                  injection hp' with heq
                  exact Or.inl heq.symm
                · exact Or.inr ⟨r', hr', hsel', hp', hin'⟩
            · intro c
              rw [mem_insertSet, ihv c]
              constructor
              · rintro (rfl | ⟨px, hpx, rfl⟩)
                · exact ⟨px0, List.mem_cons_self _ _, rfl⟩
                · exact ⟨px, List.mem_cons_of_mem _ hpx, rfl⟩
              · rintro ⟨px, hpx, rfl⟩
                rcases List.mem_cons.mp hpx with rfl | hpx
                · exact Or.inl rfl
                · exact Or.inr ⟨px, hpx, rfl⟩
    · rw [assemblePrograms, if_neg hsel] at h
      obtain ⟨ihp, ihv⟩ := ih ps valid h
      refine ⟨fun px => ?_, ihv⟩
      rw [ihp px]
      constructor
      · rintro ⟨r', hr', hsel', hp', hin'⟩
        exact ⟨r', List.mem_cons_of_mem _ hr', hsel', hp', hin'⟩
      · rintro ⟨r', hr', hsel', hp', hin'⟩
        rcases List.mem_cons.mp hr' with rfl | hr'
        · exact absurd hsel' hsel
        · exact ⟨r', hr', hsel', hp', hin'⟩

lemma getXmltvData_spec (xmltvIds : List String) (start stop : Int)
    (rs : List SfrProgram) (doc : XmltvDocument)
    (h : getXmltvData xmltvIds start stop rs = some doc) :
    (∀ px : XmltvProgram,
      px ∈ doc.programs ↔ ∃ r ∈ rs, sfrToXmltvId r.channel ∈ xmltvIds ∧
        parseProgramXmltv r = some px ∧ ¬(px.stop < start ∨ px.start ≥ stop)) ∧
    (∀ c : String, c ∈ doc.channels ↔ ∃ px ∈ doc.programs, px.channel = c) := by
  unfold getXmltvData at h
  rcases hrec : assemblePrograms xmltvIds start stop rs with - | pv <;> rw [hrec] at h
  · cases h
  · obtain ⟨ps, valid⟩ := pv
    dsimp only at h
    rw [Option.some.injEq] at h
    subst h
    exact assemblePrograms_mem xmltvIds start stop rs ps valid hrec

/-- C9: in the assembled document a channel element is present exactly for
the channel ids that produced at least one retained programme — so a
requested channel with zero retained programmes in the window never appears
in the channel list — and every programme kept in the document passed the
window filter. -/
theorem getXmltvData_channels_exactly_retained (xmltvIds : List String)
    (wstart wstop : Int) (rs : List SfrProgram) (doc : XmltvDocument)
    (h : getXmltvData xmltvIds wstart wstop rs = some doc) (c : String) :
    (c ∈ doc.channels ↔ ∃ px ∈ doc.programs, px.channel = c) ∧
    (∀ px ∈ doc.programs, ¬(px.stop < wstart ∨ px.start ≥ wstop)) := by
  obtain ⟨hp, hv⟩ := getXmltvData_spec xmltvIds wstart wstop rs doc h
  refine ⟨hv c, fun px hpx => ?_⟩
  obtain ⟨r, -, -, -, hin⟩ := (hp px).mp hpx
  exact hin

/-- A concrete sample record on vendor channel "chan_a" with window-interior
timestamps. -/
def sampleRecordA : SfrProgram :=
  ⟨"chan_a", 60, 120, some "Foo", none, none, none, none, none, none⟩

/-- The programme that `sampleRecordA` transforms to. -/
def samplePxA : XmltvProgram :=
  ⟨"chan-a.tv.sfr.fr", 60, 120, "Foo", none, none, [], none, none⟩

/-- Witness for C9: with channels "chan-a…" and "chan-b…" requested and one
in-window record on "chan_a", the document lists exactly channel "chan-a…";
the requested "chan-b…" with zero retained programmes is absent. -/
theorem getXmltvData_channels_exactly_retained_witness :
    getXmltvData ["chan-a.tv.sfr.fr", "chan-b.tv.sfr.fr"] 0 1440 [sampleRecordA] =
      some ⟨["chan-a.tv.sfr.fr"], [samplePxA]⟩ ∧
    ((("chan-b.tv.sfr.fr" ∈ (XmltvDocument.mk ["chan-a.tv.sfr.fr"] [samplePxA]).channels) ↔
        ∃ px ∈ (XmltvDocument.mk ["chan-a.tv.sfr.fr"] [samplePxA]).programs,
          px.channel = "chan-b.tv.sfr.fr") ∧
     (∀ px ∈ (XmltvDocument.mk ["chan-a.tv.sfr.fr"] [samplePxA]).programs,
        ¬(px.stop < 0 ∨ px.start ≥ 1440))) :=
  ⟨by decide,
   getXmltvData_channels_exactly_retained
     ["chan-a.tv.sfr.fr", "chan-b.tv.sfr.fr"] 0 1440 [sampleRecordA]
     ⟨["chan-a.tv.sfr.fr"], [samplePxA]⟩ (by decide) "chan-b.tv.sfr.fr"⟩

/-- C1 (amended): boundary semantics of the window filter as implemented
(`program_stop < start or program_start >= stop` skips): a programme with
stop == window_start is INCLUDED (provided its start is before the window
stop), a programme with start == window_stop is excluded, and a programme
with start == window_start whose stop is at or after the window start is
included (provided the window is non-empty). -/
theorem windowFilter_boundary (xmltvIds : List String) (wstart wstop : Int)
    (rs : List SfrProgram) (doc : XmltvDocument) (px : XmltvProgram)
    (h : getXmltvData xmltvIds wstart wstop rs = some doc)
    (hex : ∃ r ∈ rs, sfrToXmltvId r.channel ∈ xmltvIds ∧
      parseProgramXmltv r = some px) :
    (px.stop = wstart → px.start < wstop → px ∈ doc.programs) ∧
    (px.start = wstop → px ∉ doc.programs) ∧
    (px.start = wstart → wstart ≤ px.stop → wstart < wstop → px ∈ doc.programs) := by
  obtain ⟨hp, -⟩ := getXmltvData_spec xmltvIds wstart wstop rs doc h
  obtain ⟨r, hr, hsel, hpx⟩ := hex
  refine ⟨fun hstop hstart => ?_, fun hstart hmem => ?_, fun hstart hstop hw => ?_⟩
  · exact (hp px).mpr ⟨r, hr, hsel, hpx, by omega⟩
  · obtain ⟨-, -, -, -, hin⟩ := (hp px).mp hmem
    exact hin (Or.inr (by omega))
  · exact (hp px).mpr ⟨r, hr, hsel, hpx, by omega⟩

/-- Witness for C1 (amended) with window [0, 1440) and a record starting at
the window start. -/
theorem windowFilter_boundary_witness :
    getXmltvData ["chan-a.tv.sfr.fr"] 60 1440 [sampleRecordA] =
      some ⟨["chan-a.tv.sfr.fr"], [samplePxA]⟩ ∧
    (∃ r ∈ [sampleRecordA], sfrToXmltvId r.channel ∈ ["chan-a.tv.sfr.fr"] ∧
      parseProgramXmltv r = some samplePxA) ∧
    ((samplePxA.stop = 60 → samplePxA.start < 1440 →
        samplePxA ∈ (XmltvDocument.mk ["chan-a.tv.sfr.fr"] [samplePxA]).programs) ∧
     (samplePxA.start = 1440 →
        samplePxA ∉ (XmltvDocument.mk ["chan-a.tv.sfr.fr"] [samplePxA]).programs) ∧
     (samplePxA.start = 60 → (60:Int) ≤ samplePxA.stop → (60:Int) < 1440 →
        samplePxA ∈ (XmltvDocument.mk ["chan-a.tv.sfr.fr"] [samplePxA]).programs)) :=
  ⟨by decide, ⟨sampleRecordA, by decide⟩,
   windowFilter_boundary ["chan-a.tv.sfr.fr"] 60 1440 [sampleRecordA]
     ⟨["chan-a.tv.sfr.fr"], [samplePxA]⟩ samplePxA (by decide)
     ⟨sampleRecordA, by decide⟩⟩

/-- A record whose programme stops exactly at the window start used in the
counterexample below. -/
def c1Record : SfrProgram :=
  ⟨"chan_a", 40, 100, some "Foo", none, none, none, none, none, none⟩

/-- The programme `c1Record` transforms to. -/
def c1Px : XmltvProgram :=
  ⟨"chan-a.tv.sfr.fr", 40, 100, "Foo", none, none, [], none, none⟩

/-- Counterexample to C1 as stated: with window [100, 1540), the programme
of `c1Record` has stop == window_start = 100, yet it is retained and
appears in the assembled document — the filter drops only stop <
window_start, so this boundary program is NOT excluded. -/
theorem windowFilter_stop_eq_start_retained :
    getXmltvData ["chan-a.tv.sfr.fr"] 100 1540 [c1Record] =
      some ⟨["chan-a.tv.sfr.fr"], [c1Px]⟩ ∧
    c1Px.stop = 100 ∧ c1Px ∈ [c1Px] := by
  refine ⟨by decide, rfl, List.mem_singleton.mpr rfl⟩

lemma parseProgramXmltv_none_of_title_none {r : SfrProgram} (ht : r.title = none) :
    parseProgramXmltv r = none := by
  unfold parseProgramXmltv
  rw [ht]

lemma assemblePrograms_missing_title (xmltvIds : List String) (start stop : Int)
    (rs : List SfrProgram) (r : SfrProgram) (hr : r ∈ rs)
    (hsel : sfrToXmltvId r.channel ∈ xmltvIds) (ht : r.title = none) :
    assemblePrograms xmltvIds start stop rs = none := by
  induction rs with
  | nil => cases hr
  | cons a rs ih =>
    rcases List.mem_cons.mp hr with rfl | hr'
    · rw [assemblePrograms, if_pos hsel, parseProgramXmltv_none_of_title_none ht]
    · have hrec := ih hr'
      by_cases hsela : sfrToXmltvId a.channel ∈ xmltvIds
      · rw [assemblePrograms, if_pos hsela]
        rcases hp : parseProgramXmltv a with - | px0
        · rfl
        · dsimp only
          by_cases hskip : px0.stop < start ∨ px0.start ≥ stop
          · rw [if_pos hskip, hrec]
          · rw [if_neg hskip, hrec]
      · rw [assemblePrograms, if_neg hsela, hrec]

/-- C10: the title access of the Record Transformer is unguarded — a
program record on a selected channel with no title element makes the
transform fail rather than being skipped with a warning, and the failure
aborts the entire grab: the whole assembled document is lost. -/
theorem missingTitle_aborts_grab (xmltvIds : List String) (wstart wstop : Int)
    (rs : List SfrProgram) (r : SfrProgram) (hr : r ∈ rs)
    (hsel : sfrToXmltvId r.channel ∈ xmltvIds) (ht : r.title = none) :
    parseProgramXmltv r = none ∧ getXmltvData xmltvIds wstart wstop rs = none := by
  refine ⟨parseProgramXmltv_none_of_title_none ht, ?_⟩
  unfold getXmltvData
  rw [assemblePrograms_missing_title xmltvIds wstart wstop rs r hr hsel ht]

/-- A title-less record on vendor channel "chan_a". -/
def titlelessRecord : SfrProgram :=
  ⟨"chan_a", 60, 120, none, none, none, none, none, none, none⟩

/-- Witness for C10: a grab whose feed holds `sampleRecordA` and one
title-less record on the selected channel produces no document at all. -/
theorem missingTitle_aborts_grab_witness :
    (titlelessRecord ∈ [sampleRecordA, titlelessRecord] ∧
     sfrToXmltvId titlelessRecord.channel ∈ ["chan-a.tv.sfr.fr"] ∧
     titlelessRecord.title = none) ∧
    (parseProgramXmltv titlelessRecord = none ∧
     getXmltvData ["chan-a.tv.sfr.fr"] 0 1440 [sampleRecordA, titlelessRecord] = none) :=
  ⟨⟨by decide, by decide, rfl⟩,
   missingTitle_aborts_grab ["chan-a.tv.sfr.fr"] 0 1440
     [sampleRecordA, titlelessRecord] titlelessRecord
     (by decide) (by decide) rfl⟩

/-- C5 evaluation (the empty-selection half of the claim is a code bug): a
missing configuration file is fatal — non-zero exit, no output attempted —
but a configuration file yielding no channel ids only logs the error and
still proceeds: the grab runs with an empty channel list and the process
does not exit non-zero. -/
theorem mainGrabPath_empty_config_not_fatal :
    ((mainGrabPath false []).exitedNonZero = true ∧
     (mainGrabPath false []).wroteWithIds = none) ∧
    ((mainGrabPath true [""]).exitedNonZero = false ∧
     (mainGrabPath true [""]).errorLogged = true ∧
     (mainGrabPath true [""]).wroteWithIds = some []) := by
  refine ⟨⟨rfl, rfl⟩, by decide, by decide, by decide⟩

/-- C6 (amended): the Record Transformer emits a url element exactly when
the record's identifier is non-empty after trimming, and the url text is
the fixed base path, a slash, the TRIMMED title text (the title is stripped
before the url is built — not the untrimmed title), a hyphen, and the
trimmed identifier; with no identifier (absent or empty after trimming) no
url element is emitted. -/
theorem programUrl_trimmed_title (p : SfrProgram) (px : XmltvProgram)
    (h : parseProgramXmltv p = some px) :
    px.title = pyStrip (p.title.getD "") ∧
    px.url = (if pyStrip (p.progId.getD "") ≠ "" then
        some (PROGRAM_URL ++ "/" ++ px.title ++ "-" ++ pyStrip (p.progId.getD ""))
      else none) := by
  rcases hpt : p.title with - | rawTitle
  · unfold parseProgramXmltv at h
    rw [hpt] at h
    cases h
  · unfold parseProgramXmltv at h
    rw [hpt] at h
    injection h with h
    subst h
    exact ⟨rfl, rfl⟩

/-- A record with whitespace around its title and a present identifier. -/
def c6Record : SfrProgram :=
  ⟨"chan_a", 0, 60, some " Foo ", none, none, none, none, some "42", none⟩

/-- The programme `c6Record` transforms to. -/
def c6Px : XmltvProgram :=
  ⟨"chan-a.tv.sfr.fr", 0, 60, "Foo", none, none, [],
   some "http://tv.sfr.fr/prog/Foo-42", none⟩

/-- Counterexample to C6 as stated: with title " Foo " (surrounding
whitespace) and identifier "42", the synthesized url text contains the
trimmed title "Foo", not the untrimmed title text " Foo ". -/
theorem programUrl_not_untrimmed_title :
    (parseProgramXmltv c6Record).bind (fun px => px.url) =
      some (PROGRAM_URL ++ "/" ++ "Foo" ++ "-" ++ "42") ∧
    (parseProgramXmltv c6Record).bind (fun px => px.url) ≠
      some (PROGRAM_URL ++ "/" ++ " Foo " ++ "-" ++ "42") := by
  exact ⟨by decide, by decide⟩

/-- Witness for C6 (amended) at `c6Record`. -/
theorem programUrl_trimmed_title_witness :
    parseProgramXmltv c6Record = some c6Px ∧
    (c6Px.title = pyStrip (c6Record.title.getD "") ∧
     c6Px.url = (if pyStrip (c6Record.progId.getD "") ≠ "" then
         some (PROGRAM_URL ++ "/" ++ c6Px.title ++ "-" ++
           pyStrip (c6Record.progId.getD ""))
       else none)) :=
  ⟨by decide, programUrl_trimmed_title c6Record c6Px (by decide)⟩

lemma parse_categories_eq (p : SfrProgram) (px : XmltvProgram)
    (h : parseProgramXmltv p = some px)
    (hcat : pyStrip (p.category.getD "") ≠ "") :
    px.categories =
      (match (etsiCategory (pyStrip (p.category.getD ""))).1 with
        | some e => if e ≠ "" then [XmltvCategory.mk e none] else []
        | none => []) ++
      [XmltvCategory.mk (pyStrip (p.category.getD "")) (some "fr")] ++
      (if pyStrip (p.metacategory.getD "") ≠ "" ∧
          pyStrip (p.metacategory.getD "") ≠ pyStrip (p.category.getD "") then
        [XmltvCategory.mk (pyStrip (p.metacategory.getD "")) (some "fr")]
      else []) := by
  rcases hpt : p.title with - | rawTitle
  · unfold parseProgramXmltv at h
    rw [hpt] at h
    cases h
  · unfold parseProgramXmltv at h
    rw [hpt] at h
    injection h with h
    subst h
    dsimp only
    rw [if_pos hcat, if_pos hcat]

/-- C7: for a record whose trimmed category is non-empty, the category
translation is a pure lookup in the fixed 9-entry table (any other string
triggers the warning and yields no standard equivalent); an untagged
standard-equivalent category element is emitted exactly when the lookup
yields a non-empty string; the original category is always re-emitted
tagged as French-language text; a distinct non-empty meta-category adds one
more French-tagged element; and at most three category elements are emitted
per programme. -/
theorem categories_table_and_shape (p : SfrProgram) (px : XmltvProgram)
    (h : parseProgramXmltv p = some px)
    (hcat : pyStrip (p.category.getD "") ≠ "") :
    ETSI_PROGRAM_CATEGORIES.length = 9 ∧
    (etsiCategory (pyStrip (p.category.getD ""))).1 =
      ETSI_PROGRAM_CATEGORIES.lookup (pyStrip (p.category.getD "")) ∧
    ((etsiCategory (pyStrip (p.category.getD ""))).1 = none →
      (etsiCategory (pyStrip (p.category.getD ""))).2 = true) ∧
    ((∃ cx ∈ px.categories, cx.lang = none) ↔
      (∃ e, (etsiCategory (pyStrip (p.category.getD ""))).1 = some e ∧ e ≠ "")) ∧
    XmltvCategory.mk (pyStrip (p.category.getD "")) (some "fr") ∈ px.categories ∧
    ((pyStrip (p.metacategory.getD "") ≠ "" ∧
        pyStrip (p.metacategory.getD "") ≠ pyStrip (p.category.getD "")) →
      XmltvCategory.mk (pyStrip (p.metacategory.getD "")) (some "fr") ∈
        px.categories) ∧
    px.categories.length ≤ 3 := by
  have hcats := parse_categories_eq p px h hcat
  refine ⟨rfl, ?_, ?_, ?_, ?_, ?_, ?_⟩
  · unfold etsiCategory
    cases ETSI_PROGRAM_CATEGORIES.lookup (pyStrip (p.category.getD "")) <;> rfl
  · unfold etsiCategory
    cases ETSI_PROGRAM_CATEGORIES.lookup (pyStrip (p.category.getD "")) with
    | none => intro _; rfl
    | some v => intro hv; simp at hv
  · rw [hcats]
    rcases hl : (etsiCategory (pyStrip (p.category.getD ""))).1 with - | e
    · by_cases hm : pyStrip (p.metacategory.getD "") ≠ "" ∧
          pyStrip (p.metacategory.getD "") ≠ pyStrip (p.category.getD "")
      · simp [hm]
      · simp [hm]
    · by_cases he : e = ""
      · subst he
        by_cases hm : pyStrip (p.metacategory.getD "") ≠ "" ∧
            pyStrip (p.metacategory.getD "") ≠ pyStrip (p.category.getD "")
        · simp [hm]
        · simp [hm]
      · by_cases hm : pyStrip (p.metacategory.getD "") ≠ "" ∧
            pyStrip (p.metacategory.getD "") ≠ pyStrip (p.category.getD "")
        · simp [he, hm]
        · simp [he, hm]
  · rw [hcats]
    simp
  · intro hm
    rw [hcats]
    simp [hm]
  · rw [hcats]
    rcases hl : (etsiCategory (pyStrip (p.category.getD ""))).1 with - | e
    · by_cases hm : pyStrip (p.metacategory.getD "") ≠ "" ∧
          pyStrip (p.metacategory.getD "") ≠ pyStrip (p.category.getD "")
      · simp [hm]
      · simp [hm]
    · by_cases he : e = ""
      · subst he
        by_cases hm : pyStrip (p.metacategory.getD "") ≠ "" ∧
            pyStrip (p.metacategory.getD "") ≠ pyStrip (p.category.getD "")
        · simp [hm]
        · simp [hm]
      · by_cases hm : pyStrip (p.metacategory.getD "") ≠ "" ∧
            pyStrip (p.metacategory.getD "") ≠ pyStrip (p.category.getD "")
        · simp [he, hm]
        · simp [he, hm]

/-- A record with known category "Sport" and a distinct meta-category. -/
def c7Record : SfrProgram :=
  ⟨"chan_a", 0, 60, some "T", none, none, some "Sport", some "Foot", none, none⟩

/-- The programme `c7Record` transforms to: three category elements. -/
def c7Px : XmltvProgram :=
  ⟨"chan-a.tv.sfr.fr", 0, 60, "T", none, none,
   [⟨"Sports", none⟩, ⟨"Sport", some "fr"⟩, ⟨"Foot", some "fr"⟩], none, none⟩

/-- Witness for C7 at `c7Record`. -/
theorem categories_table_and_shape_witness :
    (parseProgramXmltv c7Record = some c7Px ∧
     pyStrip (c7Record.category.getD "") ≠ "") ∧
    (ETSI_PROGRAM_CATEGORIES.length = 9 ∧
     (etsiCategory (pyStrip (c7Record.category.getD ""))).1 =
       ETSI_PROGRAM_CATEGORIES.lookup (pyStrip (c7Record.category.getD "")) ∧
     ((etsiCategory (pyStrip (c7Record.category.getD ""))).1 = none →
       (etsiCategory (pyStrip (c7Record.category.getD ""))).2 = true) ∧
     ((∃ cx ∈ c7Px.categories, cx.lang = none) ↔
       (∃ e, (etsiCategory (pyStrip (c7Record.category.getD ""))).1 = some e ∧
         e ≠ "")) ∧
     XmltvCategory.mk (pyStrip (c7Record.category.getD "")) (some "fr") ∈
       c7Px.categories ∧
     ((pyStrip (c7Record.metacategory.getD "") ≠ "" ∧
         pyStrip (c7Record.metacategory.getD "") ≠
           pyStrip (c7Record.category.getD "")) →
       XmltvCategory.mk (pyStrip (c7Record.metacategory.getD "")) (some "fr") ∈
         c7Px.categories) ∧
     c7Px.categories.length ≤ 3) :=
  ⟨⟨by decide, by decide⟩,
   categories_table_and_shape c7Record c7Px (by decide) (by decide)⟩
